import Mathlib

/-!
Verification of the lrc-generator frontend (React/TypeScript) and of the
alignment pipeline described in its specification.

The TypeScript handlers of `App.tsx` are embedded as pure Lean functions:
the `result` table is a list of `LyricLine` records, JS numbers that hold
audio offsets (seconds) are modelled as rationals, and JS string/number
primitives (`padStart`, `toString`, `Math.floor`, `Math.round`, `%`,
`substring`) are given explicit models below.

The Python backend (the forced-alignment engine) is absent from the
repository snapshot, so the Normalizer / Token Aligner / Line Resolver
chain is modelled from the specification text; those definitions carry a
`Modelled from the spec:` doc comment.
-/

namespace LrcGen

section
attribute [local semireducible] Rat.add Rat.mul Rat.sub Rat.inv

/-! ## Models of the JavaScript primitives used by the handlers -/

/-- Model of JS `String.prototype.padStart(n, c)`: prepend copies of `c`
until the length is at least `n`; a string already of length `≥ n` is
returned unchanged. -/
def jsPadStart (s : String) (n : Nat) (c : Char) : String :=
  ⟨List.replicate (n - s.data.length) c ++ s.data⟩

/-- Decimal digits of a natural number, most significant first; `fuel`
bounds the recursion (callers pass `n + 1`, which is always enough). -/
def natDigitsAux : Nat → Nat → List Char
  | 0, _ => []
  | fuel+1, n =>
    if n < 10 then [Nat.digitChar n]
    else natDigitsAux fuel (n / 10) ++ [Nat.digitChar (n % 10)]

/-- Model of JS `Number.prototype.toString()` on a natural number. -/
def natToString (n : Nat) : String := ⟨natDigitsAux (n + 1) n⟩

/-- Model of JS `Number.prototype.toString()` on an integer. -/
def intToString : Int → String
  | Int.ofNat n => natToString n
  | Int.negSucc n => "-" ++ natToString (n + 1)

/-- Model of JS `Math.trunc` / the rounding used by the `%` operator:
round toward zero. -/
def jsTrunc (q : ℚ) : ℤ := if 0 ≤ q then ⌊q⌋ else ⌈q⌉

/-- Model of the JS remainder operator `a % b`: `a - b * trunc (a / b)`,
so the result carries the sign of `a`. -/
def jsMod (a b : ℚ) : ℚ := a - b * (jsTrunc (a / b) : ℚ)

/-- Model of JS `Math.round`: round half toward positive infinity. -/
def jsRound (q : ℚ) : ℤ := ⌊q + 1 / 2⌋

/-- Model of JS `String.prototype.substring(a, b)` (for `a ≤ b` within
range): the characters from index `a` up to, not including, index `b`. -/
def jsSubstring (s : String) (a b : Nat) : String :=
  ⟨(s.data.take b).drop a⟩

/-! ## The data model of the editing table (`App.tsx`) -/

/-- The `LyricLine` record of `App.tsx`: one row of the editable table.
All nine fields are strings; `ImprovedEnglish` embeds the TS field named
`'Improved English'`. -/
structure LyricLine where
  linea : String
  minutes : String
  seconds : String
  milliseconds : String
  Japanese : String
  Romaji : String
  English : String
  ImprovedEnglish : String
  selectedLyric : String
deriving DecidableEq, Inhabited

/-- The `Metadata` record of `App.tsx`. -/
structure Metadata where
  title : String
  artist : String
  album : String
  length : String
deriving DecidableEq, Inhabited

/-- A row as served by the backend `/process-lyrics` endpoint, before the
frontend attaches `selectedLyric` (eight fields of `data.lyrics`). -/
structure BackendRow where
  linea : String
  minutes : String
  seconds : String
  milliseconds : String
  Japanese : String
  Romaji : String
  English : String
  ImprovedEnglish : String
deriving DecidableEq, Inhabited

/-- The `processedData` construction inside `handleSubmit`: spread the
backend row and set `selectedLyric` to `row['Improved English'] ||
row['English']` (JS `||` falls through on the empty string). -/
def toLyricLine (row : BackendRow) : LyricLine :=
  { linea := row.linea
    minutes := row.minutes
    seconds := row.seconds
    milliseconds := row.milliseconds
    Japanese := row.Japanese
    Romaji := row.Romaji
    English := row.English
    ImprovedEnglish := row.ImprovedEnglish
    selectedLyric := if row.ImprovedEnglish = "" then row.English else row.ImprovedEnglish }

/-- `data.lyrics.map(row => ({...row, selectedLyric: ...}))` of
`handleSubmit`. -/
def processedData (rows : List BackendRow) : List LyricLine :=
  rows.map toLyricLine

/-! ## `handleSetTimestamp` (the Time Formatter of the frontend) -/

/-- The three formatted components produced by `handleSetTimestamp`. -/
structure TimeFields where
  minutes : String
  seconds : String
  milliseconds : String
deriving DecidableEq, Inhabited

/-- The formatting core of `handleSetTimestamp`:
`minutes = Math.floor(time / 60).toString().padStart(2, '0')`,
`seconds = Math.floor(time % 60).toString().padStart(2, '0')`,
`milliseconds = Math.round((time % 1) * 1000).toString().padStart(3, '0')`. -/
def handleSetTimestampFields (time : ℚ) : TimeFields :=
  { minutes := jsPadStart (intToString ⌊time / 60⌋) 2 '0'
    seconds := jsPadStart (intToString ⌊jsMod time 60⌋) 2 '0'
    milliseconds := jsPadStart (intToString (jsRound (jsMod time 1 * 1000))) 3 '0' }

/-- The state update of `handleSetTimestamp`: with a selected line and a
non-null table, overwrite that row's three timestamp fields with the
formatted components; otherwise leave the table untouched. -/
def handleSetTimestampUpdate (selectedLineIndex : Option Nat)
    (result : Option (List LyricLine)) (time : ℚ) : Option (List LyricLine) :=
  match selectedLineIndex, result with
  | some i, some res =>
    let f := handleSetTimestampFields time
    some (res.set i { res.getD i default with
      minutes := f.minutes, seconds := f.seconds, milliseconds := f.milliseconds })
  | _, _ => result

/-! ## `handleLyricEdit`, `handleResetTimestamps` -/

/-- The field selector passed to `handleLyricEdit` (`keyof LyricLine`). -/
inductive FieldKey
  | linea | minutes | seconds | milliseconds
  | japanese | romaji | english | improvedEnglish | selectedLyric
deriving DecidableEq

/-- `{...row, [field]: value}`. -/
def setField (row : LyricLine) : FieldKey → String → LyricLine
  | .linea, v => { row with linea := v }
  | .minutes, v => { row with minutes := v }
  | .seconds, v => { row with seconds := v }
  | .milliseconds, v => { row with milliseconds := v }
  | .japanese, v => { row with Japanese := v }
  | .romaji, v => { row with Romaji := v }
  | .english, v => { row with English := v }
  | .improvedEnglish, v => { row with ImprovedEnglish := v }
  | .selectedLyric, v => { row with selectedLyric := v }

/-- Model of the regex test `/^\d*$/.test(value)`: every character is a
decimal digit (the empty string passes). -/
def isDigitString (v : String) : Bool := v.data.all Char.isDigit

/-- `handleLyricEdit` of `part_003`: timestamp fields are validated
(digits only; at most 2 characters for minutes/seconds, at most 3 for
milliseconds) and the handler returns with the table unchanged when the
validation fails; any other field is written unconditionally. -/
def handleLyricEdit (result : List LyricLine) (rowIndex : Nat)
    (field : FieldKey) (value : String) : List LyricLine :=
  if (field = FieldKey.minutes ∨ field = FieldKey.seconds)
      ∧ (isDigitString value = false ∨ value.length > 2) then
    result
  else if field = FieldKey.milliseconds
      ∧ (isDigitString value = false ∨ value.length > 3) then
    result
  else
    result.set rowIndex (setField (result.getD rowIndex default) field value)

/-- The acceptance condition of `handleLyricEdit`, stated the way the
claim states it. -/
def editAllowed : FieldKey → String → Bool
  | .minutes, v => isDigitString v && v.length ≤ 2
  | .seconds, v => isDigitString v && v.length ≤ 2
  | .milliseconds, v => isDigitString v && v.length ≤ 3
  | _, _ => true

/-- The table update `handleLyricEdit` performs when the edit is
accepted. -/
def applyEdit (result : List LyricLine) (rowIndex : Nat)
    (field : FieldKey) (value : String) : List LyricLine :=
  result.set rowIndex (setField (result.getD rowIndex default) field value)

/-- `handleResetTimestamps` of `part_003`: rebuild the table, taking the
three timestamp fields of each row from `originalResult` at the same
index and every other field from the current row. (The TS code indexes
`originalResult[index]` for each index of `result`; both tables come from
the same `processedData`, so they have equal length.) -/
def handleResetTimestamps (result originalResult : List LyricLine) : List LyricLine :=
  List.zipWith
    (fun line orig => { line with
      minutes := orig.minutes, seconds := orig.seconds, milliseconds := orig.milliseconds })
    result originalResult

/-! ## `lrcPreview` (`App.tsx`) -/

/-- The five header lines of the LRC preview, joined with newlines. -/
def lrcHeaders (md : Metadata) : String :=
  String.intercalate "\n"
    ["[ar: " ++ md.artist ++ "]",
     "[al: " ++ md.album ++ "]",
     "[ti: " ++ md.title ++ "]",
     "[length: " ++ md.length ++ "]",
     "[tool: KowalskyExperto]"]

/-- One lyric line of the preview:
`` `[${row.minutes}:${row.seconds}.${centiseconds}]${japanese} ${romaji} ${selected}` ``
with `centiseconds = row.milliseconds.substring(0, 2)`. -/
def lrcLine (row : LyricLine) : String :=
  "[" ++ row.minutes ++ ":" ++ row.seconds ++ "." ++ jsSubstring row.milliseconds 0 2
    ++ "]" ++ row.Japanese ++ " " ++ row.Romaji ++ " " ++ row.selectedLyric

/-- `lrcPreview`: empty when either `result` or `metadata` is null,
otherwise the headers followed by one formatted line per row. -/
def lrcPreview : Option (List LyricLine) → Option Metadata → String
  | some res, some md =>
    lrcHeaders md ++ "\n" ++ String.intercalate "\n" (res.map lrcLine)
  | _, _ => ""

/-! ## `handleSubmit` (`App.tsx`): the state transition around the fetch -/

/-- The tab selector of `App.tsx`. -/
inductive ActiveTab | upload | edit | review
deriving DecidableEq

/-- The pieces of `App` state that `handleSubmit` touches. -/
structure AppState where
  result : Option (List LyricLine)
  metadata : Option Metadata
  error : Option String
  activeTab : ActiveTab
deriving DecidableEq

/-- The response body consumed by `handleSubmit` on success. -/
structure SubmitPayload where
  lyrics : List BackendRow
  metadata : Metadata

/-- The `handleSubmit` state transition once the fetch settles: the
handler first clears `error`, `result` and `metadata`; a non-ok response
throws and only `error` is then set from `data.detail`, while a
successful response installs `processedData` and the metadata and
switches to the edit tab. -/
def handleSubmitOutcome (st : AppState) (resp : Except String SubmitPayload) : AppState :=
  let cleared : AppState :=
    { st with error := none, result := none, metadata := none }
  match resp with
  | .error detail => { cleared with error := some detail }
  | .ok data =>
    { cleared with
      result := some (processedData data.lyrics)
      metadata := some data.metadata
      activeTab := ActiveTab.edit }

/-! ## The alignment pipeline

The Python backend is not part of the repository snapshot, so the
components below are modelled from the specification (§4.1–§4.3, §7). -/

/-- Modelled from the spec: a recognized token of the external engine —
text plus its start time in seconds (the end time and the confidence play
no role in the properties below and are omitted). -/
structure RToken where
  text : String
  start : ℚ
deriving DecidableEq

/-- Modelled from the spec: a lyric-transcript token, remembering the
index of its owning line. -/
structure LToken where
  line : Nat
  text : String
deriving DecidableEq

/-- Modelled from the spec (§4.1 Normalizer): case folding plus
whitespace/punctuation stripping; the empty string maps to the empty
normalized form. -/
def normalizeText (s : String) : String :=
  ⟨(s.data.filter
      (fun c => !(c = ' ' ∨ c = ',' ∨ c = '.' ∨ c = '!' ∨ c = '?' : Bool))).map
    Char.toLower⟩

/-- Modelled from the spec (§4.2): the fixed gap penalty, tuned to be
smaller in magnitude than any mismatch penalty. -/
def gapPenalty : ℚ := -(1 / 10)

/-- Modelled from the spec (§4.2): similarity of a recognized token and a
lyric token — full reward on an exact normalized match, a penalty worse
than two gaps otherwise (the spec leaves the partial-similarity weighting
open; this instantiation keeps the required ordering between match, gap
and mismatch costs). -/
def simScore (r : RToken) (l : LToken) : ℚ :=
  if normalizeText r.text = normalizeText l.text then 1 else -1

/-- Modelled from the spec (§4.2): the optimal cumulative score of a
global, order-preserving alignment of the two suffixes, with the three
transitions match/substitute, skip a recognized token, skip a lyric
token. `fuel` bounds the recursion; callers pass the sum of the lengths,
which is always enough. -/
def alignScore : Nat → List RToken → List LToken → ℚ
  | 0, _, _ => 0
  | _+1, [], [] => 0
  | f+1, [], _ :: ls => gapPenalty + alignScore f [] ls
  | f+1, _ :: rs, [] => gapPenalty + alignScore f rs []
  | f+1, r :: rs, l :: ls =>
    max (simScore r l + alignScore f rs ls)
      (max (gapPenalty + alignScore f rs (l :: ls))
        (gapPenalty + alignScore f (r :: rs) ls))

/-- Modelled from the spec (§4.2): the chosen alignment path as matched
(recognized, lyric) token pairs, read front to back. Ties prefer the
match transition, and because the path is built from the earliest tokens
forward, equal-score matches consume the earliest recognized token first
(the stated tie-break policy). -/
def alignPairs : Nat → List RToken → List LToken → List (RToken × LToken)
  | 0, _, _ => []
  | _+1, [], _ => []
  | _+1, _, [] => []
  | f+1, r :: rs, l :: ls =>
    let mScore := simScore r l + alignScore f rs ls
    let dScore := gapPenalty + alignScore f rs (l :: ls)
    let iScore := gapPenalty + alignScore f (r :: rs) ls
    if dScore ≤ mScore ∧ iScore ≤ mScore then (r, l) :: alignPairs f rs ls
    else if iScore ≤ dScore then alignPairs f rs (l :: ls)
    else alignPairs f (r :: rs) ls

/-- Modelled from the spec (§4.2): flatten the non-blank lines into one
ordered token list, remembering each token's owning line; blank lines
contribute no tokens but keep their index. -/
def flattenLines (lines : List (List String)) : List LToken :=
  (lines.enum.map (fun p => p.2.map (fun w => LToken.mk p.1 w))).flatten

/-- Modelled from the spec (§4.3 Line Resolver): the time of the first
recognized token that the alignment matched to a token owned by line
`k`. -/
def lineTimeOf (pairs : List (RToken × LToken)) (k : Nat) : Option ℚ :=
  (pairs.find? (fun p => p.2.line == k)).map (fun p => p.1.start)

/-- Modelled from the spec (§4.3): the anchors — lines with a directly
matched timestamp — as (index, time) pairs in index order. -/
def anchorsOf (resolved : List (Option ℚ)) : List (Nat × ℚ) :=
  resolved.enum.filterMap (fun p => p.2.map (fun t => (p.1, t)))

/-- The nearest anchor at or before line `i`. -/
def prevAnchorOf (anchors : List (Nat × ℚ)) (i : Nat) : Option (Nat × ℚ) :=
  (anchors.filter (fun a => decide (a.1 ≤ i))).getLast?

/-- The nearest anchor at or after line `i`. -/
def nextAnchorOf (anchors : List (Nat × ℚ)) (i : Nat) : Option (Nat × ℚ) :=
  (anchors.filter (fun a => decide (i ≤ a.1))).head?

/-- Modelled from the spec (§4.3): the last known inter-line spacing —
the per-line slope between the final two anchors (1 second per line when
fewer than two anchors exist). -/
def lastSpacing (anchors : List (Nat × ℚ)) : ℚ :=
  match anchors.reverse with
  | a :: b :: _ => (a.2 - b.2) / ((a.1 : ℚ) - (b.1 : ℚ))
  | _ => 1

/-- Character count of the lines with indices in `[a, b)`. -/
def charSpan (cc : List Nat) (a b : Nat) : ℚ :=
  (((List.range' a (b - a)).map (fun j => cc.getD j 0)).sum : Nat)

/-- Modelled from the spec (§4.3 interpolation pass): a matched line
keeps its time; a run of unresolved lines between two anchors receives
times distributed linearly in proportion to character counts; a leading
run extrapolates back from the first anchor (one second per line) clamped
to zero; a trailing run extrapolates forward using the last known
inter-line spacing. -/
def interpolateTimes (cc : List Nat) (resolved : List (Option ℚ)) : List ℚ :=
  let anchors := anchorsOf resolved
  resolved.enum.map (fun p =>
    match p.2 with
    | some t => t
    | none =>
      match prevAnchorOf anchors p.1, nextAnchorOf anchors p.1 with
      | some pa, some na =>
        pa.2 + (na.2 - pa.2) * charSpan cc (pa.1 + 1) (p.1 + 1) / charSpan cc (pa.1 + 1) (na.1 + 1)
      | none, some na => max 0 (na.2 - ((na.1 - p.1 : Nat) : ℚ))
      | some pa, none => pa.2 + lastSpacing anchors * ((p.1 - pa.1 : Nat) : ℚ)
      | none, none => 0)

/-- Modelled from the spec (§4.3 monotonicity enforcement): walk the tail
of the sequence, raising any time that is not above the already-fixed
predecessor to the predecessor plus epsilon. -/
def monoFix (eps : ℚ) : ℚ → List ℚ → List ℚ
  | _, [] => []
  | prev, t :: ts =>
    let t' := if t ≤ prev then prev + eps else t
    t' :: monoFix eps t' ts

/-- Modelled from the spec (§4.3): the final pass of the Line Resolver;
the first element is kept, every later one is raised if needed. -/
def monotonePass (eps : ℚ) : List ℚ → List ℚ
  | [] => []
  | t :: ts => t :: monoFix eps t ts

/-- The minimal positive epsilon of the final pass (one millisecond). -/
def monoEpsilon : ℚ := 1 / 1000

/-- Modelled from the spec (§7): the job-level failures. -/
inductive AlignError
  | malformedTranscript
  | alignmentDegenerate
  | sizeLimitExceeded
deriving DecidableEq

/-- Modelled from the spec (§4.2): the safety bound on the
token-count/lyric-token-count product. -/
def sizeLimit : Nat := 1000000

/-- Modelled from the spec (§2, §4, §7): the whole alignment job.
Fails fast with `malformedTranscript` when no line has a token, with
`sizeLimitExceeded` when the table would be too large, and with
`alignmentDegenerate` when no lyric line can be anchored by any match
(which subsumes an empty recognized-token stream); otherwise resolves
line times, interpolates the unresolved lines and applies the
monotonicity pass. No timestamp table is produced on any failure. -/
def runPipeline (rToks : List RToken) (lines : List (List String)) :
    Except AlignError (List ℚ) :=
  if lines.all (fun ws => ws.isEmpty) then
    .error .malformedTranscript
  else
    let lToks := flattenLines lines
    if sizeLimit < rToks.length * lToks.length then
      .error .sizeLimitExceeded
    else
      let pairs := alignPairs (rToks.length + lToks.length) rToks lToks
      if pairs.isEmpty then
        .error .alignmentDegenerate
      else
        let resolved := (List.range lines.length).map (lineTimeOf pairs)
        let cc := lines.map (fun ws => (ws.map String.length).sum)
        .ok (monotonePass monoEpsilon (interpolateTimes cc resolved))

/-- An alignment scenario with a repeated chorus, following the
specification's own test scenario: two "la" clusters (10.0–11.0 s and
40.0–41.0 s) around a "bridge" cluster at 25.0 s. -/
def chorusTokens : List RToken :=
  [⟨"la", 10⟩, ⟨"la", 21 / 2⟩, ⟨"bridge", 25⟩, ⟨"la", 40⟩, ⟨"la", 81 / 2⟩]

/-- The transcript of the repeated-chorus scenario: "la la", "bridge",
"la la". -/
def chorusLines : List (List String) := [["la", "la"], ["bridge"], ["la", "la"]]

/-- A concrete backend row used to probe the hand-off record format. -/
def sampleBackendRow : BackendRow :=
  ⟨"line one", "00", "12", "340", "jp", "ro", "en", "imp"⟩

/-! ## Helper lemmas -/

set_option maxRecDepth 1000000 in
lemma padStart2_natToString_len :
    ∀ n : Nat, n < 100 → (jsPadStart (natToString n) 2 '0').length = 2 := by
  decide

set_option maxRecDepth 1000000 in
lemma padStart3_natToString_len :
    ∀ n : Nat, n < 1000 → (jsPadStart (natToString n) 3 '0').length = 3 := by
  decide

lemma padStart2_intToString_len (k : ℤ) (h0 : 0 ≤ k) (h1 : k < 100) :
    (jsPadStart (intToString k) 2 '0').length = 2 := by
  obtain ⟨n, rfl⟩ : ∃ n : ℕ, k = Int.ofNat n := ⟨k.toNat, (Int.toNat_of_nonneg h0).symm⟩
  have hn : n < 100 := by simp only [Int.ofNat_eq_coe] at h1; exact_mod_cast h1
  exact padStart2_natToString_len n hn

lemma padStart3_intToString_len (k : ℤ) (h0 : 0 ≤ k) (h1 : k < 1000) :
    (jsPadStart (intToString k) 3 '0').length = 3 := by
  obtain ⟨n, rfl⟩ : ∃ n : ℕ, k = Int.ofNat n := ⟨k.toNat, (Int.toNat_of_nonneg h0).symm⟩
  have hn : n < 1000 := by simp only [Int.ofNat_eq_coe] at h1; exact_mod_cast h1
  exact padStart3_natToString_len n hn

/-- For a nonnegative dividend and a positive divisor the JS remainder
agrees with the mathematical remainder: it lies in `[0, b)`. -/
lemma jsMod_bounds (t b : ℚ) (ht : 0 ≤ t) (hb : 0 < b) :
    0 ≤ jsMod t b ∧ jsMod t b < b := by
  have hq : 0 ≤ t / b := div_nonneg ht hb.le
  unfold jsMod jsTrunc
  rw [if_pos hq]
  constructor
  · have h1 : (⌊t / b⌋ : ℚ) ≤ t / b := Int.floor_le _
    have h2 : (⌊t / b⌋ : ℚ) * b ≤ t := (le_div_iff₀ hb).mp h1
    linarith
  · have h1 : t / b < ⌊t / b⌋ + 1 := Int.lt_floor_add_one _
    have h2 : t < ((⌊t / b⌋ : ℚ) + 1) * b := (div_lt_iff₀ hb).mp h1
    linarith

lemma monoFix_chain (eps : ℚ) (he : 0 < eps) :
    ∀ (ts : List ℚ) (prev : ℚ), List.Chain' (· ≤ ·) (prev :: monoFix eps prev ts)
  | [], prev => by simp [monoFix]
  | t :: ts, prev => by
    simp only [monoFix]
    rw [List.chain'_cons]
    refine ⟨?_, monoFix_chain eps he ts _⟩
    by_cases h : t ≤ prev
    · simp only [if_pos h]; linarith
    · simp only [if_neg h]; linarith [not_le.mp h]

/-- The final pass of the Line Resolver yields a sequence in which every
element is at most its successor. -/
lemma monotonePass_chain (eps : ℚ) (he : 0 < eps) (ts : List ℚ) :
    List.Chain' (· ≤ ·) (monotonePass eps ts) := by
  cases ts with
  | nil => simp [monotonePass]
  | cons t ts => exact monoFix_chain eps he ts t

lemma monotonePass_getD (eps : ℚ) (he : 0 < eps) (ts : List ℚ) (i : Nat)
    (hi : i + 1 < (monotonePass eps ts).length) :
    (monotonePass eps ts).getD i 0 ≤ (monotonePass eps ts).getD (i + 1) 0 := by
  have hc := monotonePass_chain eps he ts
  rw [List.chain'_iff_get] at hc
  have hg := hc i (by omega)
  rw [List.getD_eq_getElem _ _ (by omega), List.getD_eq_getElem _ _ (by omega)]
  simpa using hg

lemma alignPairs_nil_left (f : Nat) (ls : List LToken) : alignPairs f [] ls = [] := by
  cases f <;> cases ls <;> rfl

/-! ## The claims -/

/-- C1: every timestamp sequence the alignment pipeline returns is
monotonically non-decreasing — consecutive assigned start times satisfy
`out[i] ≤ out[i+1]` — because the Line Resolver's final pass raises any
offending time above its predecessor, even when interpolation would
otherwise violate the ordering. -/
theorem c1_output_monotone (rToks : List RToken) (lines : List (List String))
    (out : List ℚ) (h : runPipeline rToks lines = .ok out)
    (i : Nat) (hi : i + 1 < out.length) :
    out.getD i 0 ≤ out.getD (i + 1) 0 := by
  simp only [runPipeline] at h
  split at h
  · exact absurd h (by simp)
  split at h
  · exact absurd h (by simp)
  split at h
  · exact absurd h (by simp)
  injection h with hout
  rw [← hout] at hi ⊢
  exact monotonePass_getD _ (by norm_num [monoEpsilon]) _ i hi

/-- C1, witness: a two-line job whose output `[3, 7]` the theorem orders. -/
theorem c1_output_monotone_witness :
    ([(3 : ℚ), 7].getD 0 0 ≤ [(3 : ℚ), 7].getD 1 0)
    ∧ runPipeline [⟨"a", 3⟩, ⟨"b", 7⟩] [["a"], ["b"]] = .ok [3, 7] :=
  ⟨c1_output_monotone [⟨"a", 3⟩, ⟨"b", 7⟩] [["a"], ["b"]] [3, 7] rfl 0 (by decide),
   rfl⟩

set_option maxRecDepth 1000000 in
/-- C2: on the specification's repeated-chorus scenario — lyric lines
"la la" / "bridge" / "la la" against "la" clusters at 10.0–11.0 s and
40.0–41.0 s with a "bridge" cluster at 25.0 s — the pipeline assigns the
first chorus line 10.0 s, the bridge 25.0 s and the second chorus line
40.0 s: each repetition consumes a distinct cluster in chronological
order, never both the first one. -/
theorem c2_repeated_lines_chronological :
    runPipeline chorusTokens chorusLines = .ok [10, 25, 40] := rfl

/-- C3, counterexample: the claim promises exactly 2/2/3 characters per
field for every nonnegative input, but at 6000.9996 s the code produces
a 3-character minutes field ("100") and a 4-character milliseconds field
("1000", `Math.round` having reached 1000), because `padStart` never
truncates and the rounded milliseconds are not carried. -/
theorem c3_formatter_widths_counterexample :
    (0 : ℚ) ≤ 60009996 / 10000
    ∧ handleSetTimestampFields (60009996 / 10000) = ⟨"100", "00", "1000"⟩
    ∧ (handleSetTimestampFields (60009996 / 10000)).minutes.length = 3
    ∧ (handleSetTimestampFields (60009996 / 10000)).milliseconds.length = 4 := by
  decide

/-- C3 (amended): for every nonnegative input the seconds field has
exactly 2 characters; the minutes field has exactly 2 characters whenever
`⌊t/60⌋ < 100`, and the milliseconds field exactly 3 whenever the rounded
value stays at most 999 (both fields are only ever zero-padded up to that
width, never truncated); the cited examples hold: 125.999 s formats to
"02"/"05"/"999" and 0 s to "00"/"00"/"000". -/
theorem c3_formatter_widths (t : ℚ) (ht : 0 ≤ t) :
    (handleSetTimestampFields t).seconds.length = 2
    ∧ (⌊t / 60⌋ < 100 → (handleSetTimestampFields t).minutes.length = 2)
    ∧ (jsRound (jsMod t 1 * 1000) ≤ 999 →
        (handleSetTimestampFields t).milliseconds.length = 3)
    ∧ handleSetTimestampFields (125999 / 1000) = ⟨"02", "05", "999"⟩
    ∧ handleSetTimestampFields 0 = ⟨"00", "00", "000"⟩ := by
  have hsec : 0 ≤ jsMod t 60 ∧ jsMod t 60 < 60 := jsMod_bounds t 60 ht (by norm_num)
  have hms : 0 ≤ jsMod t 1 ∧ jsMod t 1 < 1 := jsMod_bounds t 1 ht (by norm_num)
  refine ⟨?_, ?_, ?_, by decide, by decide⟩
  · have h0 : (0 : ℤ) ≤ ⌊jsMod t 60⌋ := Int.floor_nonneg.mpr hsec.1
    have h1 : ⌊jsMod t 60⌋ < 60 := Int.floor_lt.mpr (by exact_mod_cast hsec.2)
    exact padStart2_intToString_len _ h0 (by omega)
  · intro h1
    have h0 : (0 : ℤ) ≤ ⌊t / 60⌋ := Int.floor_nonneg.mpr (div_nonneg ht (by norm_num))
    exact padStart2_intToString_len _ h0 h1
  · intro h1
    have h0 : (0 : ℤ) ≤ jsRound (jsMod t 1 * 1000) := by
      unfold jsRound
      exact Int.floor_nonneg.mpr (by nlinarith [hms.1])
    exact padStart3_intToString_len _ h0 (by omega)

/-- C3, witness: the amended bounds instantiated at 125.999 s, where all
side conditions hold and all three widths are exact. -/
theorem c3_formatter_widths_witness :
    (0 : ℚ) ≤ 125999 / 1000
    ∧ (handleSetTimestampFields (125999 / 1000)).seconds.length = 2
    ∧ (handleSetTimestampFields (125999 / 1000)).minutes.length = 2
    ∧ (handleSetTimestampFields (125999 / 1000)).milliseconds.length = 3 := by
  refine ⟨by norm_num, ?_, ?_, ?_⟩
  · exact (c3_formatter_widths (125999 / 1000) (by norm_num)).1
  · exact (c3_formatter_widths (125999 / 1000) (by norm_num)).2.1 (by decide)
  · exact (c3_formatter_widths (125999 / 1000) (by norm_num)).2.2.1 (by decide)

/-- C4, counterexample: the claim demands a loud failure on negative
input, but `handleSetTimestamp` performs no check at all: at -5 s it
returns the formatted field set minutes "-1", seconds "-5", milliseconds
"000" and writes it into the selected row. -/
theorem c4_negative_input_counterexample :
    (-5 : ℚ) < 0
    ∧ handleSetTimestampUpdate (some 0) (some [default]) (-5)
      = some [{ (default : LyricLine) with
          minutes := "-1", seconds := "-5", milliseconds := "000" }] := by
  decide

/-- C4 (amended): negative input is neither rejected nor clamped to zero:
for every negative time the handler still returns a formatted field set,
whose minutes field renders the negative `Math.floor(time / 60)` and so
is never the clamped "00". -/
theorem c4_negative_input_not_clamped (t : ℚ) (ht : t < 0) :
    (handleSetTimestampFields t).minutes ≠ "00" := by
  have hq : t / 60 < 0 := div_neg_of_neg_of_pos ht (by norm_num)
  have hk : ⌊t / 60⌋ < 0 := by
    by_contra hcon
    push_neg at hcon
    exact absurd (Int.floor_nonneg.mp hcon) (not_le.mpr hq)
  intro hEq
  simp only [handleSetTimestampFields] at hEq
  rcases hfl : ⌊t / 60⌋ with n | m
  · rw [hfl] at hk
    simp only [Int.ofNat_eq_coe] at hk
    omega
  · rw [hfl] at hEq
    have hdata : (jsPadStart (intToString (Int.negSucc m)) 2 '0').data = "00".data := by
      rw [hEq]
    have hcons : (intToString (Int.negSucc m)).data
        = '-' :: (natToString (m + 1)).data := by
      show (("-" : String) ++ natToString (m + 1)).data = _
      rw [String.data_append]
      rfl
    unfold jsPadStart at hdata
    rw [hcons] at hdata
    rcases hnd : (natToString (m + 1)).data with _ | ⟨c, cs⟩
    · rw [hnd] at hdata
      simp at hdata
    · rw [hnd] at hdata
      simp [List.replicate] at hdata

/-- C4, witness: the amended statement instantiated at -5 s. -/
theorem c4_negative_input_not_clamped_witness :
    (-5 : ℚ) < 0 ∧ (handleSetTimestampFields (-5)).minutes ≠ "00" :=
  ⟨by norm_num, c4_negative_input_not_clamped (-5) (by norm_num)⟩

/-- C5: when the transcript has at least one non-blank line, the job is
within the size bound, and the alignment is degenerate — the recognized
token stream is empty, or no lyric line is anchored by any match (the
alignment path holds no matched pair) — the pipeline fails with
`alignmentDegenerate` and carries no timestamp table in the failure; on
the frontend side, a failed submission leaves `result` empty
(`handleSubmit` clears it before the fetch and only ever fills it on a
successful response) and stores the error detail instead — no zero-filled
table is ever fabricated. -/
theorem c5_degenerate_no_result (rToks : List RToken) (lines : List (List String))
    (hnb : ∃ l ∈ lines, l ≠ [])
    (hsz : rToks.length * (flattenLines lines).length ≤ sizeLimit)
    (hdeg : rToks = []
      ∨ alignPairs (rToks.length + (flattenLines lines).length) rToks
          (flattenLines lines) = [])
    (st : AppState) (detail : String) :
    runPipeline rToks lines = .error .alignmentDegenerate
    ∧ (handleSubmitOutcome st (.error detail)).result = none
    ∧ (handleSubmitOutcome st (.error detail)).error = some detail := by
  refine ⟨?_, rfl, rfl⟩
  have hpairs : alignPairs (rToks.length + (flattenLines lines).length) rToks
      (flattenLines lines) = [] := by
    rcases hdeg with rfl | hp
    · exact alignPairs_nil_left _ _
    · exact hp
  have hmal : lines.all (fun ws => ws.isEmpty) = false := by
    obtain ⟨l, hl, hne⟩ := hnb
    rw [List.all_eq_false]
    exact ⟨l, hl, by simpa [List.isEmpty_iff] using hne⟩
  unfold runPipeline
  rw [if_neg (by simp [hmal])]
  rw [if_neg (not_lt.mpr hsz)]
  rw [hpairs]
  rfl

set_option maxRecDepth 1000000 in
/-- C5, witness: both degenerate antecedents instantiated — a one-line
transcript with no recognized tokens, and a nonempty token stream
("xyz" at 5 s) whose alignment anchors no line of the transcript
("abc"), where the optimal path skips both tokens rather than force the
mismatch. -/
theorem c5_degenerate_no_result_witness :
    runPipeline [] [["word"]] = .error .alignmentDegenerate
    ∧ runPipeline [⟨"xyz", 5⟩] [["abc"]] = .error .alignmentDegenerate
    ∧ (handleSubmitOutcome ⟨none, none, none, .upload⟩ (.error "boom")).result = none
    ∧ (handleSubmitOutcome ⟨none, none, none, .upload⟩ (.error "boom")).error
      = some "boom" :=
  ⟨(c5_degenerate_no_result [] [["word"]] ⟨["word"], by simp, by simp⟩ (by decide)
      (Or.inl rfl) ⟨none, none, none, .upload⟩ "boom").1,
   (c5_degenerate_no_result [⟨"xyz", 5⟩] [["abc"]] ⟨["abc"], by simp, by simp⟩
      (by decide) (Or.inr (by decide)) ⟨none, none, none, .upload⟩ "boom").1,
   (c5_degenerate_no_result [] [["word"]] ⟨["word"], by simp, by simp⟩ (by decide)
      (Or.inl rfl) ⟨none, none, none, .upload⟩ "boom").2.1,
   (c5_degenerate_no_result [] [["word"]] ⟨["word"], by simp, by simp⟩ (by decide)
      (Or.inl rfl) ⟨none, none, none, .upload⟩ "boom").2.2⟩

/-- C6, counterexample: the hand-off records do not carry a line index
(nor a status) under any field naming: mapping two identical backend rows
yields two equal `LyricLine` records at positions 0 and 1, so no function
of the record can recover the line position. -/
theorem c6_record_fields_counterexample :
    ¬ ∃ lineIndex : LyricLine → Nat,
      ∀ i, i < (processedData [sampleBackendRow, sampleBackendRow]).length →
        lineIndex ((processedData [sampleBackendRow, sampleBackendRow]).getD i default)
          = i := by
  rintro ⟨f, hf⟩
  have h0 := hf 0 (by decide)
  have h1 := hf 1 (by decide)
  have heq : (processedData [sampleBackendRow, sampleBackendRow]).getD 0 default
      = (processedData [sampleBackendRow, sampleBackendRow]).getD 1 default := rfl
  rw [heq] at h0
  omega

/-- C6 (amended): each hand-off record carries the line text, the three
timestamp fields and the translation/selection fields (nine string
fields; there is no per-line status field and no line-index field), and
the records appear ordered by original line position: the sequence keeps
the backend's length and its `i`-th record is derived from the `i`-th
backend row. -/
theorem c6_record_fields_ordered (rows : List BackendRow) (i : Nat)
    (hi : i < rows.length) :
    (processedData rows).length = rows.length
    ∧ (processedData rows).getD i default = toLyricLine (rows.getD i default) := by
  refine ⟨by simp [processedData], ?_⟩
  have hi2 : i < (processedData rows).length := by simp [processedData]; omega
  rw [List.getD_eq_getElem _ _ hi2, List.getD_eq_getElem _ _ hi]
  simp [processedData]

/-- C6, witness: the order/derivation statement at a one-row table. -/
theorem c6_record_fields_ordered_witness :
    (processedData [sampleBackendRow]).length = 1
    ∧ (processedData [sampleBackendRow]).getD 0 default
      = toLyricLine ([sampleBackendRow].getD 0 default) :=
  c6_record_fields_ordered [sampleBackendRow] 0 (by decide)

/-- C7: the LRC-preview construction is deterministic — equal result
tables and equal metadata produce equal preview strings, so running the
construction twice on byte-identical inputs yields byte-identical
output. -/
theorem c7_preview_deterministic (r1 r2 : Option (List LyricLine))
    (m1 m2 : Option Metadata) (h1 : r1 = r2) (h2 : m1 = m2) :
    lrcPreview r1 m1 = lrcPreview r2 m2 := by
  rw [h1, h2]

/-- C7, witness: two syntactically different but equal inputs. -/
theorem c7_preview_deterministic_witness :
    lrcPreview (some ([default] ++ [])) (some default)
      = lrcPreview (some [default]) (some default) :=
  c7_preview_deterministic (some ([default] ++ [])) (some [default])
    (some default) (some default) rfl rfl

/-- C8: each preview line consists of the bracketed timestamp — minutes,
colon, seconds, dot, then the centiseconds taken as the first two
characters of the milliseconds string (truncation, not rounding) — the
closing bracket, and the Japanese text, Romaji and selected lyric
separated by single spaces. -/
theorem c8_centiseconds_truncated (row : LyricLine) :
    lrcLine row
      = "[" ++ row.minutes ++ ":" ++ row.seconds ++ "."
        ++ String.mk (row.milliseconds.data.take 2) ++ "]"
        ++ row.Japanese ++ " " ++ row.Romaji ++ " " ++ row.selectedLyric := rfl

/-- C9: a validated lyric edit is applied exactly when the acceptance
condition holds — digits-only and at most two characters for the minutes
and seconds fields, digits-only and at most three characters for the
milliseconds field, unconditionally for every other field — and a
rejected edit leaves the whole table unchanged. -/
theorem c9_lyric_edit_validation (res : List LyricLine) (i : Nat)
    (f : FieldKey) (v : String) :
    handleLyricEdit res i f v
      = if editAllowed f v then applyEdit res i f v else res := by
  cases f <;> simp only [handleLyricEdit, editAllowed, applyEdit]
  case minutes =>
    by_cases h1 : isDigitString v <;> by_cases h2 : v.length ≤ 2 <;>
      simp [h1, h2]
  case seconds =>
    by_cases h1 : isDigitString v <;> by_cases h2 : v.length ≤ 2 <;>
      simp [h1, h2]
  case milliseconds =>
    by_cases h1 : isDigitString v <;> by_cases h2 : v.length ≤ 3 <;>
      simp [h1, h2]
  all_goals simp

/-- C10: on tables of equal length, resetting timestamps restores exactly
the minutes, seconds and milliseconds of each row from the originally
loaded table and leaves every other field of every row (and the table's
length) unchanged. -/
theorem c10_reset_timestamps (res orig : List LyricLine)
    (h : res.length = orig.length) (i : Nat) (hi : i < res.length) :
    (handleResetTimestamps res orig).length = res.length
    ∧ ((handleResetTimestamps res orig).getD i default).minutes
        = (orig.getD i default).minutes
    ∧ ((handleResetTimestamps res orig).getD i default).seconds
        = (orig.getD i default).seconds
    ∧ ((handleResetTimestamps res orig).getD i default).milliseconds
        = (orig.getD i default).milliseconds
    ∧ ((handleResetTimestamps res orig).getD i default).linea
        = (res.getD i default).linea
    ∧ ((handleResetTimestamps res orig).getD i default).Japanese
        = (res.getD i default).Japanese
    ∧ ((handleResetTimestamps res orig).getD i default).Romaji
        = (res.getD i default).Romaji
    ∧ ((handleResetTimestamps res orig).getD i default).English
        = (res.getD i default).English
    ∧ ((handleResetTimestamps res orig).getD i default).ImprovedEnglish
        = (res.getD i default).ImprovedEnglish
    ∧ ((handleResetTimestamps res orig).getD i default).selectedLyric
        = (res.getD i default).selectedLyric := by
  have hlen : (handleResetTimestamps res orig).length = res.length := by
    simp [handleResetTimestamps, List.length_zipWith, h]
  have hio : i < orig.length := by omega
  have hiz : i < (handleResetTimestamps res orig).length := by omega
  have hz : (handleResetTimestamps res orig).getD i default
      = { res.getD i default with
          minutes := (orig.getD i default).minutes
          seconds := (orig.getD i default).seconds
          milliseconds := (orig.getD i default).milliseconds } := by
    rw [List.getD_eq_getElem _ _ hiz, List.getD_eq_getElem _ _ hi,
      List.getD_eq_getElem _ _ hio]
    simp [handleResetTimestamps, List.getElem_zipWith]
  rw [hz]
  exact ⟨hlen, rfl, rfl, rfl, rfl, rfl, rfl, rfl, rfl, rfl⟩

/-- C10, witness: a one-row table with edited timestamps reset against
its original. -/
theorem c10_reset_timestamps_witness :
    ((handleResetTimestamps [{ (default : LyricLine) with minutes := "99" }]
        [{ (default : LyricLine) with minutes := "01" }]).getD 0 default).minutes
      = ([{ (default : LyricLine) with minutes := "01" }].getD 0 default).minutes :=
  (c10_reset_timestamps [{ (default : LyricLine) with minutes := "99" }]
    [{ (default : LyricLine) with minutes := "01" }] rfl 0 (by decide)).2.1

end

end LrcGen
